import Mathlib

/-!
Verification of the quilt version-resolution tool against its specification.

The tool fetches version feeds (JSON metadata and a maven XML index), selects a
consistent set of toolchain versions, and renders a gradle version catalog.
The development below embeds the data model, the selectors, the formatter and
the orchestration of `main` as executable Lean definitions, and proves the
specified properties about them.  Network transport and deserialization are
modelled by passing the decoded feeds (or a transport/decode error) as inputs.
-/

/-- Modelled from the spec: an identifier of a semantic-version pre-release
component — a numeric identifier or an alphanumeric one.  The semver parsing
and ordering code lives in the external `semver` crate, not in this
repository, so it is modelled from the specification's description. -/
inductive PreId where
  | num (n : Nat)
  | str (s : String)
deriving DecidableEq

/-- Modelled from the spec: a parsed semantic version — `major.minor.patch`
plus optional pre-release identifiers and build metadata. -/
structure SemVer where
  major : Nat
  minor : Nat
  patch : Nat
  pre : List PreId
  build : String
deriving DecidableEq

/-- Modelled from the spec: comparison of single pre-release identifiers,
standard semver precedence — numeric identifiers compare numerically and are
lower than alphanumeric identifiers, which compare lexically. -/
def cmpPreId : PreId → PreId → Ordering
  | .num a, .num b => compare a b
  | .num _, .str _ => .lt
  | .str _, .num _ => .gt
  | .str a, .str b => compare a b

/-- Modelled from the spec: lexicographic comparison of pre-release identifier
lists; a strict prefix is lower. -/
def cmpIds : List PreId → List PreId → Ordering
  | [], [] => .eq
  | [], _ :: _ => .lt
  | _ :: _, [] => .gt
  | a :: as, b :: bs => (cmpPreId a b).then (cmpIds as bs)

/-- Modelled from the spec: pre-release component comparison — a version
without a pre-release is higher than any pre-release of the same version;
otherwise identifier lists compare lexicographically. -/
def cmpPre : List PreId → List PreId → Ordering
  | [], [] => .eq
  | [], _ :: _ => .gt
  | _ :: _, [] => .lt
  | a :: as, b :: bs => cmpIds (a :: as) (b :: bs)

/-- Modelled from the spec: semantic-version precedence — major, then minor,
then patch, then pre-release; build metadata is excluded from the ordering. -/
def cmpVersion (v w : SemVer) : Ordering :=
  (compare v.major w.major).then
    ((compare v.minor w.minor).then
      ((compare v.patch w.patch).then (cmpPre v.pre w.pre)))

/-- The boolean "less or equal" induced by `cmpVersion`, used for sorting. -/
def vle (v w : SemVer) : Bool :=
  !(cmpVersion v w == Ordering.gt)

/-- A version with its build metadata removed; `cmpVersion` only looks at this
part of a version. -/
def stripBuild (v : SemVer) : SemVer :=
  { v with build := "" }

/-- Does the first character list begin with the second list's characters? -/
def leadMatch : List Char → List Char → Bool
  | [], _ => true
  | _ :: _, [] => false
  | a :: as, b :: bs => a == b && leadMatch as bs

/-- Does a character list occur inside another (contiguously)? -/
def subMatch : List Char → List Char → Bool
  | n, [] => leadMatch n []
  | n, b :: bs => leadMatch n (b :: bs) || subMatch n bs

/-- Embedding of Rust `str::contains` for a string pattern: substring test. -/
def strContains (hay need : String) : Bool :=
  subMatch need.data hay.data

/-- Embedding of Rust `str::contains('-')`: does the string contain a hyphen? -/
def hasDash (s : String) : Bool :=
  s.data.contains '-'

/-- Rendering of a pre-release identifier, as in the semver `Display`. -/
def preIdStr : PreId → String
  | .num n => toString n
  | .str s => s

/-- Modelled from the spec: the semver crate's `Display` for a version,
`major.minor.patch[-pre][+build]`, used by `v.to_string()` in `main`. -/
def verToString (v : SemVer) : String :=
  toString v.major ++ "." ++ toString v.minor ++ "." ++ toString v.patch
    ++ (if v.pre.isEmpty then "" else "-" ++ String.intercalate "." (v.pre.map preIdStr))
    ++ (if v.build.isEmpty then "" else "+" ++ v.build)

/-- A JSON value, as far as the selectors inspect one (`Value::as_bool` is the
only accessor used). -/
inductive JVal where
  | jbool (b : Bool)
  | jstr (s : String)
  | jnum (n : Int)
  | jnull
deriving DecidableEq

/-- Embedding of `serde_json::Value::as_bool`. -/
def JVal.asBool : JVal → Option Bool
  | .jbool b => some b
  | _ => none

/-- Embedding of `MetaEntry`: a version string plus the flattened map of the
remaining JSON fields (keys are unique in a decoded JSON map). -/
structure MetaEntry where
  version : String
  extra : List (String × JVal)
deriving DecidableEq

/-- Embedding of `serde_json::Map::get`: look a key up in the extra fields. -/
def MetaEntry.getExtra (e : MetaEntry) (k : String) : Option JVal :=
  (e.extra.find? (fun p => p.1 == k)).map (fun p => p.2)

/-- The stability test from `main`:
`entry.extra.get("stable").and_then(|v| v.as_bool()) == Some(true)`. -/
def isStable (e : MetaEntry) : Bool :=
  ((e.getExtra "stable").bind JVal.asBool) == some true

/-- Embedding of `Versions`: the resolved toolchain snapshot. -/
structure Versions where
  minecraft : String
  loom : String
  loader : String
  mappings : String
  qfapi : Option String
deriving DecidableEq

/-- The errors `main` can abort with (transport/decode failures are injected
as inputs; the selector failures carry the data of their context message). -/
inductive Err where
  | transport (msg : String)
  | noStable
  | noLoader
  | noMappings (minecraft : String)
  | noLoom
deriving DecidableEq

/-- The human-readable message attached to each error by `with_context`. -/
def Err.message : Err → String
  | .transport m => m
  | .noStable => "no stable Minecraft versions (???)"
  | .noLoader => "no loaders (???)"
  | .noMappings mc => "no mappings compatible with Minecraft version " ++ mc
  | .noLoom => "no loom versions (???)"

/-- The ordering of `vle` as a decidable relation, for sorting. -/
def vleP (v w : SemVer) : Prop :=
  vle v w = true

instance : DecidableRel vleP := fun v w => decEq (vle v w) true

/-- Embedding of `Client::maven`'s post-processing: stable ascending sort of
the decoded version list, then return it reversed (most recent first).  A
stable correct sort is unique, so the insertion sort used here computes the
same list as Rust's `Vec::sort`. -/
def mavenOrder (l : List SemVer) : List SemVer :=
  (l.insertionSort vleP).reverse

/-- The maven client with its transport/decode outcome made explicit: on a
successful fetch the decoded list is sorted and reversed. -/
def clientMaven (raw : Except Err (List SemVer)) : Except Err (List SemVer) :=
  match raw with
  | .error e => .error e
  | .ok l => .ok (mavenOrder l)

/-- The diagnostic notice `main` prints when the game version was
auto-detected. -/
def noticeFor (v : String) : String :=
  "Using latest Minecraft version (" ++ v ++ ")"

/-- Embedding of the game-version resolution in `main`: an explicit first
argument is used verbatim; otherwise the first stable entry of the `/game`
feed is chosen and a notice is emitted; `NoStableVersion` if none is. -/
def resolveMinecraft (args : List String) (game : Except Err (List MetaEntry)) :
    Except Err (String × List String) :=
  match args.head? with
  | some v => .ok (v, [])
  | none =>
    match game with
    | .error e => .error e
    | .ok feed =>
      match (feed.find? isStable).map (fun e => e.version) with
      | some v => .ok (v, [noticeFor v])
      | none => .error .noStable

/-- Embedding of the loader selection in `main`: the first version of the
`/loader` feed that contains no hyphen. -/
def selectLoader (loader : Except Err (List MetaEntry)) : Except Err String :=
  match loader with
  | .error e => .error e
  | .ok feed =>
    match (feed.map (fun e => e.version)).find? (fun v => !(hasDash v)) with
    | some v => .ok v
    | none => .error .noLoader

/-- Embedding of the mappings selection in `main`: the first entry of the feed
scoped to the resolved game version; the error carries that game version. -/
def selectMappings (mappings : Except Err (List MetaEntry)) (minecraft : String) :
    Except Err String :=
  match mappings with
  | .error e => .error e
  | .ok feed =>
    match feed.head?.map (fun e => e.version) with
    | some v => .ok v
    | none => .error (.noMappings minecraft)

/-- Embedding of the loom selection in `main`: the first entry of the
descending maven list for `org.quiltmc.loom`. -/
def selectLoom (loom : Except Err (List SemVer)) : Except Err String :=
  match loom with
  | .error e => .error e
  | .ok list =>
    match list.head?.map verToString with
    | some v => .ok v
    | none => .error .noLoom

/-- The compatibility-library predicate from `main`:
`v.build.contains(&minecraft)` — only the build metadata is inspected. -/
def qfapiMatch (v : SemVer) (minecraft : String) : Bool :=
  strContains v.build minecraft

/-- Embedding of the qfapi selection in `main`: the first entry of the
descending maven list whose build metadata contains the resolved game
version; absence is an `Option`, not an error. -/
def selectQfapi (list : List SemVer) (minecraft : String) : Option String :=
  (list.find? (fun v => qfapiMatch v minecraft)).map verToString

/-- Join a list of lines with newlines (no trailing newline). -/
def joinLines : List String → String
  | [] => ""
  | [l] => l
  | l :: ls => l ++ "\n" ++ joinLines ls

/-- The `[versions]` entry (or advisory comment) for the optional qfapi
version, from `format_gradle_catalog`. -/
def catalogVersionLine (q : Option String) : String :=
  match q with
  | some v => "quilted_fabric_api = \"" ++ v ++ "\""
  | none => "# Compatible Quilted Fabric API not found; check manually."

/-- The comment marker put before the qfapi library line when no compatible
version was found, from `format_gradle_catalog`. -/
def catalogLibComment (q : Option String) : String :=
  match q with
  | some _ => ""
  | none => "# "

/-- The (uncommented) qfapi library line of the catalog template. -/
def qfapiLibLine : String :=
  "quilted_fabric_api = \x7b module = \"org.quiltmc.quilted-fabric-api:quilted-fabric-api\", version.ref = \"quilted_fabric_api\" \x7d"

/-- The catalog template of `format_gradle_catalog`, line by line. -/
def catalogTemplate (v : Versions) : List String :=
  ["[versions]",
   "minecraft = \"" ++ v.minecraft ++ "\"",
   "quilt_loader = \"" ++ v.loader ++ "\"",
   "quilt_mappings = \"" ++ v.mappings ++ "\"",
   "",
   catalogVersionLine v.qfapi,
   "",
   "[libraries]",
   "minecraft = \x7b module = \"com.mojang:minecraft\", version.ref = \"minecraft\" \x7d",
   "quilt_loader = \x7b module = \"org.quiltmc:quilt-loader\", version.ref = \"quilt_loader\" \x7d",
   "quilt_mappings = \x7b module = \"org.quiltmc:quilt-mappings\", version.ref = \"quilt_mappings\" \x7d",
   "        ",
   catalogLibComment v.qfapi ++ qfapiLibLine,
   "",
   "[plugins]",
   "quilt_loom = \x7b id = \"org.quiltmc.loom\", version = \"" ++ v.loom ++ "\" \x7d"]

/-- Embedding of `format_gradle_catalog`: the fixed template with the snapshot
fields substituted; the qfapi lines degrade to comments when absent. -/
def format_gradle_catalog (v : Versions) : String :=
  joinLines (catalogTemplate v)

deriving instance DecidableEq for Except

/-- The observable outcome of a run: lines written to standard output, lines
written to the diagnostic stream, and the process result. -/
structure RunOut where
  stdout : List String
  stderr : List String
  result : Except Err Unit
deriving DecidableEq

/-- Embedding of `main`, with every fetch's decoded outcome supplied as an
input: resolve the game version, select loader, mappings (scoped to the game
version), loom and qfapi, assemble the snapshot, format it, and print the
catalog; any failing step aborts the run with its error. -/
def runMain (args : List String) (game loaderFeed : Except Err (List MetaEntry))
    (mappingsFeed : String → Except Err (List MetaEntry))
    (loomRaw qfapiRaw : Except Err (List SemVer)) : RunOut :=
  match resolveMinecraft args game with
  | .error e => ⟨[], [], .error e⟩
  | .ok (minecraft, notices) =>
    match selectLoader loaderFeed with
    | .error e => ⟨[], notices, .error e⟩
    | .ok loader =>
      match selectMappings (mappingsFeed minecraft) minecraft with
      | .error e => ⟨[], notices, .error e⟩
      | .ok mappings =>
        match selectLoom (clientMaven loomRaw) with
        | .error e => ⟨[], notices, .error e⟩
        | .ok loom =>
          match clientMaven qfapiRaw with
          | .error e => ⟨[], notices, .error e⟩
          | .ok qlist =>
            let qfapi := selectQfapi qlist minecraft
            ⟨[format_gradle_catalog ⟨minecraft, loom, loader, mappings, qfapi⟩],
              notices, .ok ()⟩

/-- Split a character list at newline characters, as `str.split('\n')`. -/
def splitLines : List Char → List (List Char)
  | [] => [[]]
  | c :: rest =>
    if c = '\n' then [] :: splitLines rest
    else
      match splitLines rest with
      | [] => [[c]]
      | l :: ls => (c :: l) :: ls

/-- Is the line a comment line of the catalog (starts with `#`)? -/
def isCommentLine (l : List Char) : Bool :=
  match l with
  | '#' :: _ => true
  | _ => false

/-- Does the line start with the given string? -/
def beginsWith (p : String) (l : List Char) : Bool :=
  leadMatch p.data l

/-! ### Laws of the version comparator -/

instance : Batteries.OrientedCmp cmpPreId where
  symm x y := by
    cases x <;> cases y <;> simp only [cmpPreId, Ordering.swap] <;>
      exact Batteries.OrientedCmp.symm ..

instance : Batteries.TransCmp cmpPreId where
  le_trans {x y z} h1 h2 := by
    cases x <;> cases y <;> cases z <;> simp only [cmpPreId] at h1 h2 ⊢ <;>
      first
        | exact Batteries.TransCmp.le_trans h1 h2
        | simp_all

theorem cmpIds_swap : ∀ (x y : List PreId), (cmpIds x y).swap = cmpIds y x
  | [], [] => rfl
  | [], _ :: _ => rfl
  | _ :: _, [] => rfl
  | a :: as, b :: bs => by
    simp only [cmpIds, Ordering.swap_then, cmpIds_swap as bs,
      Batteries.OrientedCmp.symm a b]

instance : Batteries.OrientedCmp cmpIds where
  symm := cmpIds_swap

theorem cmpIds_le_trans : ∀ (x y z : List PreId),
    cmpIds x y ≠ .gt → cmpIds y z ≠ .gt → cmpIds x z ≠ .gt
  | [], _, [], _, _ => by simp [cmpIds]
  | [], _, _ :: _, _, _ => by simp [cmpIds]
  | _ :: _, [], _, h1, _ => by simp [cmpIds] at h1
  | _ :: _, _ :: _, [], _, h2 => by simp [cmpIds] at h2
  | a :: as, b :: bs, c :: cs, h1, h2 => by
    simp only [cmpIds, ne_eq, Ordering.then_eq_gt, not_or, not_and] at h1 h2 ⊢
    refine ⟨Batteries.TransCmp.le_trans h1.1 h2.1, fun e1 e2 => ?_⟩
    match ab : cmpPreId a b with
    | .gt => exact h1.1 ab
    | .eq =>
      have hbc : cmpPreId b c = .eq :=
        (Batteries.TransCmp.cmp_congr_left ab).symm.trans e1
      exact cmpIds_le_trans as bs cs (h1.2 ab) (h2.2 hbc) e2
    | .lt =>
      have hcb : cmpPreId c b = .lt := by
        have h := Batteries.TransCmp.cmp_congr_left e1 (z := b)
        rw [← h]; exact ab
      exact h2.1 (Batteries.OrientedCmp.cmp_eq_gt.2 hcb)

instance : Batteries.TransCmp cmpIds where
  le_trans h1 h2 := cmpIds_le_trans _ _ _ h1 h2

theorem cmpPre_swap : ∀ (x y : List PreId), (cmpPre x y).swap = cmpPre y x
  | [], [] => rfl
  | [], _ :: _ => rfl
  | _ :: _, [] => rfl
  | a :: as, b :: bs => cmpIds_swap (a :: as) (b :: bs)

theorem cmpPre_le_trans : ∀ (x y z : List PreId),
    cmpPre x y ≠ .gt → cmpPre y z ≠ .gt → cmpPre x z ≠ .gt
  | [], [], [], _, _ => by simp [cmpPre]
  | [], [], _ :: _, _, h2 => h2
  | [], _ :: _, _, h1, _ => absurd rfl h1
  | _ :: _, _, [], _, _ => by simp [cmpPre]
  | _ :: _, [], _ :: _, _, h2 => absurd rfl h2
  | a :: as, b :: bs, c :: cs, h1, h2 => cmpIds_le_trans (a :: as) (b :: bs) (c :: cs) h1 h2

instance : Batteries.TransCmp cmpPre where
  symm := cmpPre_swap
  le_trans h1 h2 := cmpPre_le_trans _ _ _ h1 h2

instance : Batteries.TransCmp cmpVersion :=
  inferInstanceAs (Batteries.TransCmp
    (compareLex (compareOn SemVer.major)
      (compareLex (compareOn SemVer.minor)
        (compareLex (compareOn SemVer.patch)
          (Ordering.byKey SemVer.pre cmpPre)))))

theorem vle_eq_true_iff (v w : SemVer) : vle v w = true ↔ cmpVersion v w ≠ .gt := by
  unfold vle
  rcases h : cmpVersion v w <;> decide

theorem cmpVersion_refl (v : SemVer) : cmpVersion v v = Ordering.eq :=
  Batteries.OrientedCmp.cmp_refl

instance : IsTrans SemVer vleP where
  trans a b c h1 h2 := by
    rw [vleP, vle_eq_true_iff] at h1 h2 ⊢
    exact Batteries.TransCmp.le_trans h1 h2

instance : IsTotal SemVer vleP where
  total a b := by
    rw [vleP, vleP, vle_eq_true_iff, vle_eq_true_iff]
    by_cases h : cmpVersion a b = .gt
    · exact Or.inr fun hc => absurd (Batteries.OrientedCmp.cmp_eq_gt.1 h) (by simp [hc])
    · exact Or.inl h

/-! ### Line-splitting lemmas for the formatter -/

theorem splitLines_noNL : ∀ (x : List Char), x.contains '\n' = false → splitLines x = [x]
  | [], _ => rfl
  | c :: cs, h => by
    simp only [List.contains_cons, Bool.or_eq_false_iff, beq_eq_false_iff_ne, ne_eq] at h
    have hc : ¬ c = '\n' := fun hh => h.1 hh.symm
    simp only [splitLines, if_neg hc, splitLines_noNL cs h.2]

theorem splitLines_chunk : ∀ (a b : List Char), a.contains '\n' = false →
    splitLines (a ++ '\n' :: b) = a :: splitLines b
  | [], _, _ => by simp [splitLines]
  | c :: cs, b, h => by
    simp only [List.contains_cons, Bool.or_eq_false_iff, beq_eq_false_iff_ne, ne_eq] at h
    have hc : ¬ c = '\n' := fun hh => h.1 hh.symm
    rw [List.cons_append]
    simp only [splitLines, if_neg hc, splitLines_chunk cs b h.2]

theorem splitLines_joinLines : ∀ (ls : List String), ls ≠ [] →
    (∀ l ∈ ls, l.data.contains '\n' = false) →
    splitLines (joinLines ls).data = ls.map String.data
  | [], h, _ => absurd rfl h
  | [l], _, h => by
    simp only [joinLines, List.map]
    exact splitLines_noNL l.data (h l (by simp))
  | l :: l2 :: ls, _, h => by
    have hl : l.data.contains '\n' = false := h l (by simp)
    show splitLines ((l ++ "\n") ++ joinLines (l2 :: ls)).data = _
    rw [String.data_append, String.data_append, List.append_assoc]
    have hnl : "\n".data ++ (joinLines (l2 :: ls)).data
        = '\n' :: (joinLines (l2 :: ls)).data := rfl
    rw [hnl, splitLines_chunk _ _ hl,
      splitLines_joinLines (l2 :: ls) (by simp) (fun x hx => h x (List.mem_cons_of_mem l hx))]
    rfl

/-- Claim C3: for every decoded maven version list, the list returned by the
client (ascending sort, then reversal) is a permutation of the input and is
descending: each element is `≥` (not below) every later one under the
semantic-version ordering. -/
theorem C3_maven_descending_perm (l : List SemVer) :
    (mavenOrder l).Perm l ∧
      (mavenOrder l).Pairwise (fun a b => cmpVersion a b ≠ Ordering.lt) := by
  constructor
  · exact (List.reverse_perm _).trans (List.perm_insertionSort vleP l)
  · rw [mavenOrder, List.pairwise_reverse]
    refine (List.sorted_insertionSort vleP l).imp ?_
    intro a b hab
    exact Batteries.OrientedCmp.cmp_ne_gt.1 ((vle_eq_true_iff a b).1 hab)

/-- Claim C2: the semantic-version ordering used to sort the maven list
compares by major, then minor, then patch, then pre-release; build metadata is
excluded (versions differing only in build metadata compare equal), and the
compatibility-library match predicate inspects only the build-metadata
field. -/
theorem C2_ordering_and_match (v w u : SemVer) (mc : String) :
    cmpVersion v w = cmpVersion (stripBuild v) (stripBuild w) ∧
    (stripBuild v = stripBuild w → cmpVersion v w = Ordering.eq) ∧
    (u.build = w.build → qfapiMatch u mc = qfapiMatch w mc) := by
  refine ⟨rfl, fun h => ?_, fun h => ?_⟩
  · have hb : cmpVersion v w = cmpVersion (stripBuild v) (stripBuild w) := rfl
    rw [hb, h, cmpVersion_refl]
  · simp only [qfapiMatch, h]

/-- Witness for C2: `1.2.3+a` and `1.2.3+b` differ only in build metadata and
compare equal, and the match predicate agrees on two versions sharing build
metadata `b`. -/
theorem C2_ordering_and_match_witness :
    stripBuild ⟨1, 2, 3, [], "a"⟩ = stripBuild ⟨1, 2, 3, [], "b"⟩ ∧
    cmpVersion ⟨1, 2, 3, [], "a"⟩ ⟨1, 2, 3, [], "b"⟩ = Ordering.eq ∧
    (⟨9, 9, 9, [], "b"⟩ : SemVer).build = (⟨1, 2, 3, [], "b"⟩ : SemVer).build ∧
    qfapiMatch ⟨9, 9, 9, [], "b"⟩ "b" = qfapiMatch ⟨1, 2, 3, [], "b"⟩ "b" :=
  ⟨by decide,
   (C2_ordering_and_match ⟨1, 2, 3, [], "a"⟩ ⟨1, 2, 3, [], "b"⟩ ⟨9, 9, 9, [], "b"⟩ "b").2.1
     (by decide),
   by decide,
   (C2_ordering_and_match ⟨1, 2, 3, [], "a"⟩ ⟨1, 2, 3, [], "b"⟩ ⟨9, 9, 9, [], "b"⟩ "b").2.2
     (by decide)⟩

/-- Claim C4: an explicit first argument is used verbatim (no validation, the
feed is not consulted); otherwise the first entry of the game feed, in feed
order, whose `stable` attribute is boolean `true` is chosen, and resolution
fails with the no-stable-version error exactly when no entry is stable. -/
theorem C4_game_resolution (a : String) (rest : List String)
    (g : Except Err (List MetaEntry)) (preF postF : List MetaEntry) (e : MetaEntry) :
    resolveMinecraft (a :: rest) g = .ok (a, []) ∧
    ((∀ x ∈ preF, isStable x = false) → isStable e = true →
      resolveMinecraft [] (.ok (preF ++ e :: postF)) =
        .ok (e.version, [noticeFor e.version])) ∧
    ((∀ x ∈ preF, isStable x = false) →
      resolveMinecraft [] (.ok preF) = .error .noStable) := by
  refine ⟨rfl, fun hpre he => ?_, fun hpre => ?_⟩
  · have hnone : preF.find? isStable = none :=
      List.find?_eq_none.2 (fun x hx => by simp [hpre x hx])
    simp only [resolveMinecraft, List.head?]
    rw [List.find?_append, hnone, List.find?_cons_of_pos _ he]
    rfl
  · have hnone : preF.find? isStable = none :=
      List.find?_eq_none.2 (fun x hx => by simp [hpre x hx])
    simp only [resolveMinecraft, List.head?]
    rw [hnone]
    rfl

/-- Witness for C4 on the feed of the spec's example: `v1` unstable, `v2` and
`v3` stable — resolution returns `v2`, and an explicit argument is returned
verbatim. -/
theorem C4_game_resolution_witness :
    resolveMinecraft []
      (.ok [⟨"v1", [("stable", JVal.jbool false)]⟩,
            ⟨"v2", [("stable", JVal.jbool true)]⟩,
            ⟨"v3", [("stable", JVal.jbool true)]⟩]) =
      .ok ("v2", [noticeFor "v2"]) ∧
    resolveMinecraft ["explicit"] (.ok []) = .ok ("explicit", []) :=
  ⟨(C4_game_resolution "x" [] (.ok []) [⟨"v1", [("stable", JVal.jbool false)]⟩]
      [⟨"v3", [("stable", JVal.jbool true)]⟩] ⟨"v2", [("stable", JVal.jbool true)]⟩).2.1
     (by decide) (by decide),
   (C4_game_resolution "explicit" [] (.ok [])
      [] [] ⟨"", []⟩).1⟩

/-- Claim C5: the loader selection returns the first version of the loader
feed, in feed order, that contains no hyphen (a purely lexical test), and
fails with the no-loader error exactly when every entry contains a hyphen. -/
theorem C5_loader_selection (preV postV : List String) (v : String)
    (feed : List MetaEntry) :
    (feed.map (fun e => e.version) = preV ++ v :: postV →
      (∀ x ∈ preV, hasDash x = true) → hasDash v = false →
      selectLoader (.ok feed) = .ok v) ∧
    ((∀ x ∈ feed, hasDash x.version = true) →
      selectLoader (.ok feed) = .error .noLoader) := by
  constructor
  · intro hfeed hpre hv
    have hnone : preV.find? (fun s => !(hasDash s)) = none :=
      List.find?_eq_none.2 (fun x hx => by simp [hpre x hx])
    simp only [selectLoader]
    rw [hfeed, List.find?_append, hnone,
      List.find?_cons_of_pos (p := fun s => !(hasDash s)) _ (by simp [hv])]
    rfl
  · intro hall
    have hnone : (feed.map (fun e => e.version)).find? (fun s => !(hasDash s)) = none :=
      List.find?_eq_none.2 (fun x hx => by
        rcases List.mem_map.1 hx with ⟨y, hy, rfl⟩
        simp [hall y hy])
    simp only [selectLoader]
    rw [hnone]

/-- Witness for C5 on the feed of the spec's example:
`["1.0.0-beta", "1.0.1", "1.0.2-beta"]` selects `"1.0.1"`. -/
theorem C5_loader_selection_witness :
    selectLoader (.ok [⟨"1.0.0-beta", []⟩, ⟨"1.0.1", []⟩, ⟨"1.0.2-beta", []⟩]) =
      .ok "1.0.1" :=
  (C5_loader_selection ["1.0.0-beta"] ["1.0.2-beta"] "1.0.1"
      [⟨"1.0.0-beta", []⟩, ⟨"1.0.1", []⟩, ⟨"1.0.2-beta", []⟩]).1
    (by decide) (by decide) (by decide)

/-- Claim C6: the compatibility-library selection returns `some` of the first
version of the (descending) maven list whose build metadata contains the game
version as a substring — when the list is descending that version is not
below any other match — and returns `none` (not an error) when nothing
matches. -/
theorem C6_qfapi_selection (l preL postL : List SemVer) (v : SemVer) (mc : String) :
    ((∀ w ∈ l, qfapiMatch w mc = false) → selectQfapi l mc = none) ∧
    (l = preL ++ v :: postL →
      (∀ w ∈ preL, qfapiMatch w mc = false) → qfapiMatch v mc = true →
      selectQfapi l mc = some (verToString v) ∧
      (l.Pairwise (fun a b => cmpVersion a b ≠ Ordering.lt) →
        ∀ w ∈ l, qfapiMatch w mc = true → cmpVersion v w ≠ Ordering.lt)) := by
  constructor
  · intro hall
    have hnone : l.find? (fun w => qfapiMatch w mc) = none :=
      List.find?_eq_none.2 (fun x hx => by simp [hall x hx])
    simp only [selectQfapi]
    rw [hnone]
    rfl
  · intro hl hpre hv
    constructor
    · have hnone : preL.find? (fun w => qfapiMatch w mc) = none :=
        List.find?_eq_none.2 (fun x hx => by simp [hpre x hx])
      simp only [selectQfapi]
      rw [hl, List.find?_append, hnone,
        List.find?_cons_of_pos (p := fun w => qfapiMatch w mc) _ hv]
      rfl
    · intro hsorted w hw hwm
      subst hl
      rcases List.mem_append.1 hw with hmem | hmem
      · exact absurd hwm (by simp [hpre w hmem])
      · rcases List.mem_cons.1 hmem with rfl | hmem
        · simp [cmpVersion_refl]
        · have hp := (List.pairwise_append.1 hsorted).2.1
          exact (List.pairwise_cons.1 hp).1 w hmem

/-- Witness for C6: in the descending list `[5.0.0+1.20, 4.0.0+1.19.2]` with
game version `1.19.2`, the first (and only) match is `4.0.0+1.19.2`. -/
theorem C6_qfapi_selection_witness :
    selectQfapi [⟨5, 0, 0, [], "1.20"⟩, ⟨4, 0, 0, [], "1.19.2"⟩] "1.19.2" =
      some (verToString ⟨4, 0, 0, [], "1.19.2"⟩) :=
  ((C6_qfapi_selection [⟨5, 0, 0, [], "1.20"⟩, ⟨4, 0, 0, [], "1.19.2"⟩]
      [⟨5, 0, 0, [], "1.20"⟩] [] ⟨4, 0, 0, [], "1.19.2"⟩ "1.19.2").2
    rfl (by decide) (by decide)).1

/-- Claim C9: the mappings selection returns the first entry, in feed order,
of the feed scoped to the resolved game version, with no re-sorting; it fails
exactly when that feed is empty, with an error carrying the queried game
version in its message. -/
theorem C9_mappings_selection (mc : String) (e : MetaEntry) (rest : List MetaEntry) :
    selectMappings (.ok (e :: rest)) mc = .ok e.version ∧
    selectMappings (.ok []) mc = .error (.noMappings mc) ∧
    Err.message (.noMappings mc) =
      "no mappings compatible with Minecraft version " ++ mc :=
  ⟨rfl, rfl, rfl⟩

/-- Claim C8: each run either aborts with one error and writes nothing to
standard output, or writes exactly one catalog; an empty game feed with no
explicit argument yields the no-stable-version error and no output. -/
theorem C8_all_or_nothing (args : List String) (g l : Except Err (List MetaEntry))
    (m : String → Except Err (List MetaEntry)) (lo q : Except Err (List SemVer)) :
    ((∃ e, (runMain args g l m lo q).result = .error e ∧
        (runMain args g l m lo q).stdout = []) ∨
      (∃ c, (runMain args g l m lo q).result = .ok () ∧
        (runMain args g l m lo q).stdout = [c])) ∧
    (runMain [] (.ok []) l m lo q).result = .error .noStable ∧
    (runMain [] (.ok []) l m lo q).stdout = [] := by
  refine ⟨?_, rfl, rfl⟩
  rcases h1 : resolveMinecraft args g with e | ⟨mc, ns⟩
  · exact Or.inl ⟨e, by simp [runMain, h1]⟩
  · rcases h2 : selectLoader l with e | ld
    · exact Or.inl ⟨e, by simp [runMain, h1, h2]⟩
    · rcases h3 : selectMappings (m mc) mc with e | mp
      · exact Or.inl ⟨e, by simp [runMain, h1, h2, h3]⟩
      · rcases h4 : selectLoom (clientMaven lo) with e | lm
        · exact Or.inl ⟨e, by simp [runMain, h1, h2, h3, h4]⟩
        · rcases h5 : clientMaven q with e | ql
          · exact Or.inl ⟨e, by simp [runMain, h1, h2, h3, h4, h5]⟩
          · exact Or.inr ⟨format_gradle_catalog ⟨mc, lm, ld, mp, selectQfapi ql mc⟩,
              by simp [runMain, h1, h2, h3, h4, h5]⟩

/-- Claim C10: with an explicit game-version argument the run ignores the
game feed entirely (it is never consulted) and any further arguments, and
writes nothing to the diagnostic stream. -/
theorem C10_explicit_argument_frame (a : String) (rest rest2 : List String)
    (g g2 l : Except Err (List MetaEntry)) (m : String → Except Err (List MetaEntry))
    (lo q : Except Err (List SemVer)) :
    runMain (a :: rest) g l m lo q = runMain (a :: rest2) g2 l m lo q ∧
    (runMain (a :: rest) g l m lo q).stderr = [] := by
  have h1 : resolveMinecraft (a :: rest) g = .ok (a, []) := rfl
  refine ⟨rfl, ?_⟩
  rcases h2 : selectLoader l with e | ld
  · simp [runMain, h1, h2]
  · rcases h3 : selectMappings (m a) a with e | mp
    · simp [runMain, h1, h2, h3]
    · rcases h4 : selectLoom (clientMaven lo) with e | lm
      · simp [runMain, h1, h2, h3, h4]
      · rcases h5 : clientMaven q with e | ql
        · simp [runMain, h1, h2, h3, h4, h5]
        · simp [runMain, h1, h2, h3, h4, h5]

/-- Counterexample to claim C1 as stated: the run with an explicit empty
game-version argument succeeds — a `Versions` snapshot whose `minecraft`
field is the empty string is constructed and formatted, so construction does
not fail on empty non-optional fields. -/
theorem C1_counterexample :
    (runMain [""] (.ok []) (.ok [⟨"0.20.0", []⟩]) (fun _ => .ok [⟨"map.1", []⟩])
        (.ok [⟨1, 4, 0, [], ""⟩]) (.ok [])).result = .ok () ∧
    (runMain [""] (.ok []) (.ok [⟨"0.20.0", []⟩]) (fun _ => .ok [⟨"map.1", []⟩])
        (.ok [⟨1, 4, 0, [], ""⟩]) (.ok [])).stdout =
      [format_gradle_catalog ⟨"", "1.4.0", "0.20.0", "map.1", none⟩] ∧
    ("" : String).length = 0 :=
  ⟨rfl, rfl, rfl⟩

/-- Claim C1 amended: constructing a `Versions` snapshot never fails and no
emptiness validation exists; any explicit game-version argument, the empty
string included, flows verbatim into the constructed snapshot and the
emitted catalog. -/
theorem C1_no_construction_validation (a : String) :
    runMain [a] (.ok []) (.ok [⟨"0.20.0", []⟩]) (fun _ => .ok [⟨"map.1", []⟩])
        (.ok [⟨1, 4, 0, [], ""⟩]) (.ok []) =
      ⟨[format_gradle_catalog ⟨a, "1.4.0", "0.20.0", "map.1", none⟩], [], .ok ()⟩ :=
  rfl

/-! ### The formatter's line structure -/

theorem charsContains_append (a b : List Char) (x : Char) :
    (a ++ b).contains x = (a.contains x || b.contains x) := by
  induction a with
  | nil => simp
  | cons c cs ih => simp [List.contains_cons, ih, Bool.or_assoc]

theorem catalogLines_eq (v : Versions)
    (h1 : v.minecraft.data.contains '\n' = false)
    (h2 : v.loader.data.contains '\n' = false)
    (h3 : v.mappings.data.contains '\n' = false)
    (h4 : v.loom.data.contains '\n' = false)
    (h5 : ∀ q, v.qfapi = some q → q.data.contains '\n' = false) :
    splitLines (format_gradle_catalog v).data = (catalogTemplate v).map String.data := by
  apply splitLines_joinLines
  · simp [catalogTemplate]
  · intro l hl
    have hx : ∀ (s t : String),
        (s ++ t).data.contains '\n' = (s.data.contains '\n' || t.data.contains '\n') := by
      intro s t
      rw [String.data_append, charsContains_append]
    simp only [catalogTemplate, List.mem_cons, List.not_mem_nil, or_false] at hl
    rcases hl with rfl | rfl | rfl | rfl | rfl | rfl | rfl | rfl | rfl | rfl | rfl | rfl |
      rfl | rfl | rfl | rfl
    · decide
    · rw [hx, hx, h1]; decide
    · rw [hx, hx, h2]; decide
    · rw [hx, hx, h3]; decide
    · decide
    · rcases hq : v.qfapi with - | q
      · simp only [catalogVersionLine]; decide
      · simp only [catalogVersionLine]
        rw [hx, hx, h5 q hq]; decide
    · decide
    · decide
    · decide
    · decide
    · decide
    · decide
    · rcases hq : v.qfapi with - | q
      · simp only [catalogLibComment]; decide
      · simp only [catalogLibComment]; decide
    · decide
    · decide
    · rw [hx, hx, h4]; decide

set_option maxRecDepth 10000

/-- Counterexample to claim C7 as stated: for the snapshot with
`minecraft = "1"` and `qfapi = some "1"` the formatted catalog contains two
uncommented lines containing the string `"1"` (the minecraft entry and the
qfapi entry), not exactly one. -/
theorem C7_counterexample :
    ((splitLines (format_gradle_catalog ⟨"1", "4", "2", "3", some "1"⟩).data).countP
      (fun l => !(isCommentLine l) && subMatch "1".data l)) = 2 := by
  decide

/-- Claim C7 amended: for snapshots whose fields contain no newline — with
`qfapi = none` the catalog contains no uncommented line beginning with
`quilted_fabric_api`, the library line is emitted commented out (prefixed
`# `), and the advisory comment appears in place of the version entry; with
`qfapi = some q` the catalog contains exactly one uncommented
`quilted_fabric_api` version-entry line, namely `quilted_fabric_api = "q"`,
which contains `q`; in both cases the three section headers `[versions]`,
`[libraries]` and `[plugins]` occur as lines. -/
theorem C7_formatter_output (mc lm ld mp q : String)
    (h1 : mc.data.contains '\n' = false) (h2 : ld.data.contains '\n' = false)
    (h3 : mp.data.contains '\n' = false) (h4 : lm.data.contains '\n' = false)
    (h5 : q.data.contains '\n' = false) :
    ((splitLines (format_gradle_catalog ⟨mc, lm, ld, mp, some q⟩).data).countP
        (fun l => !(isCommentLine l) && beginsWith "quilted_fabric_api = \"" l) = 1 ∧
      ("quilted_fabric_api = \"" ++ q ++ "\"").data ∈
        splitLines (format_gradle_catalog ⟨mc, lm, ld, mp, some q⟩).data ∧
      "[versions]".data ∈ splitLines (format_gradle_catalog ⟨mc, lm, ld, mp, some q⟩).data ∧
      "[libraries]".data ∈ splitLines (format_gradle_catalog ⟨mc, lm, ld, mp, some q⟩).data ∧
      "[plugins]".data ∈ splitLines (format_gradle_catalog ⟨mc, lm, ld, mp, some q⟩).data) ∧
    ((splitLines (format_gradle_catalog ⟨mc, lm, ld, mp, none⟩).data).countP
        (fun l => !(isCommentLine l) && beginsWith "quilted_fabric_api" l) = 0 ∧
      "# Compatible Quilted Fabric API not found; check manually.".data ∈
        splitLines (format_gradle_catalog ⟨mc, lm, ld, mp, none⟩).data ∧
      ("# " ++ qfapiLibLine).data ∈
        splitLines (format_gradle_catalog ⟨mc, lm, ld, mp, none⟩).data ∧
      "[versions]".data ∈ splitLines (format_gradle_catalog ⟨mc, lm, ld, mp, none⟩).data ∧
      "[libraries]".data ∈ splitLines (format_gradle_catalog ⟨mc, lm, ld, mp, none⟩).data ∧
      "[plugins]".data ∈ splitLines (format_gradle_catalog ⟨mc, lm, ld, mp, none⟩).data) := by
  have hsome := catalogLines_eq ⟨mc, lm, ld, mp, some q⟩ h1 h2 h3 h4
    (fun q' hq => by cases hq; exact h5)
  have hnone := catalogLines_eq ⟨mc, lm, ld, mp, none⟩ h1 h2 h3 h4
    (fun q' hq => by cases hq)
  refine ⟨⟨?_, ?_, ?_, ?_, ?_⟩, ?_, ?_, ?_, ?_, ?_, ?_⟩
  · rw [hsome]; rfl
  · rw [hsome]; simp [catalogTemplate, catalogVersionLine]
  · rw [hsome]; simp [catalogTemplate]
  · rw [hsome]; simp [catalogTemplate]
  · rw [hsome]; simp [catalogTemplate]
  · rw [hnone]; rfl
  · rw [hnone]; simp [catalogTemplate, catalogVersionLine]
  · rw [hnone]; simp [catalogTemplate, catalogLibComment]
  · rw [hnone]; simp [catalogTemplate]
  · rw [hnone]; simp [catalogTemplate]
  · rw [hnone]; simp [catalogTemplate]

/-- Witness for C7 at a realistic snapshot: the catalog for minecraft
`1.20.1` with qfapi `5.0.0+1.20.1` contains the uncommented qfapi version
entry as a line. -/
theorem C7_formatter_output_witness :
    ("quilted_fabric_api = \"" ++ "5.0.0+1.20.1" ++ "\"").data ∈
      splitLines (format_gradle_catalog
        ⟨"1.20.1", "1.4.0", "0.20.0", "1.20.1+build.1", some "5.0.0+1.20.1"⟩).data :=
  (C7_formatter_output "1.20.1" "1.4.0" "0.20.0" "1.20.1+build.1" "5.0.0+1.20.1"
    (by decide) (by decide) (by decide) (by decide) (by decide)).1.2.1
